import Mathlib

/-!
# Verification of `pycox/datasets/from_rdatasets.py`

A shallow embedding of the dataset loaders in `from_rdatasets.py`: the
registry lookup `download_from_rdatasets`, the download step of
`_DatasetRdatasetsSurvival`, and the `read_df` transforms of the four
dataset classes `_Flchain`, `_Nwtco`, `_Gbsg` and `_Rotterdam`.

Tables are modelled as ordered lists of named, typed columns (the pandas
`DataFrame` shape used by the source).  Cell values are modelled exactly:
floats are rationals (the transforms only move values between int, bool
and float representations; no float rounding is exercised by the code's
arithmetic, which subtracts small integer constants).  Fallible pandas
operations (`drop` of an absent label, `df[col]` on an absent column,
`astype('float32')` on a non-numeric value) are `Option`-valued.
-/

/-- A cell value of a pandas table: missing (`NaN`/`NA`), bool, integer,
float (modelled as an exact rational) or string. -/
inductive Val where
  | na : Val
  | vBool : Bool → Val
  | vInt : Int → Val
  | vFloat : Rat → Val
  | vStr : String → Val
deriving DecidableEq, Repr

/-- The column dtypes that appear in the source file. -/
inductive Dtype where
  | dtBool : Dtype
  | dtInt64 : Dtype
  | dtFloat32 : Dtype
  | dtFloat64 : Dtype
  | dtObject : Dtype
  | dtCategory : Dtype
deriving DecidableEq, Repr

/-- A named, typed column of cell values. -/
structure Column where
  name : String
  dtype : Dtype
  values : List Val
deriving DecidableEq, Repr

/-- A pandas `DataFrame`: an ordered list of named columns. -/
abbrev DF := List Column

/-- `name in df.columns`. -/
def hasCol : DF → String → Bool
  | [], _ => false
  | c :: cs, n => c.name == n || hasCol cs n

/-- `df[n]`: the first column named `n`, if any. -/
def getCol : DF → String → Option Column
  | [], _ => none
  | c :: cs, n => if c.name == n then some c else getCol cs n

/-- The column labels of a table, in order (`df.columns`). -/
def colNames (df : DF) : List String :=
  df.map (fun c => c.name)

/-- `df.drop(labels, axis=1)`: pandas raises `KeyError` when any label is
absent, otherwise removes every column carrying one of the labels. -/
def dropCols (df : DF) (labels : List String) : Option DF :=
  if labels.all (fun n => hasCol df n)
  then some (df.filter (fun c => !(labels.contains c.name)))
  else none

/-- `v is NaN`. -/
def isNA : Val → Bool
  | Val.na => true
  | _ => false

/-- Keep the entries of a list selected by a boolean mask of the same
length (the row selection of `df.loc[mask]`). -/
def keepMasked : List Val → List Bool → List Val
  | _, [] => []
  | [], _ :: _ => []
  | v :: vs, b :: bs => if b then v :: keepMasked vs bs else keepMasked vs bs

/-- `df.loc[mask]` followed by `reset_index(drop=True)`: select the rows of
every column by the boolean mask. -/
def locMask (df : DF) (mask : List Bool) : DF :=
  df.map (fun c => { c with values := keepMasked c.values mask })

/-- `df[n] = col` (the effect of `assign` for the column named `col.name`):
replace the columns carrying that label in place, or append the new column
at the end when the label is absent. -/
def setCol (df : DF) (c : Column) : DF :=
  if hasCol df c.name
  then df.map (fun c0 => if c0.name == c.name then c else c0)
  else df ++ [c]

/-- The elementwise comparison `x == 'M'` of the flchain transform:
`True` exactly on the string `'M'` (pandas compares `NaN` and any
non-equal value as `False`). -/
def eqStrM (v : Val) : Val :=
  Val.vBool (v == Val.vStr "M")

/-- `astype('category')` on a column: the values are kept, the dtype
becomes categorical. -/
def castColCategory (c : Column) : Column :=
  { c with dtype := Dtype.dtCategory }

/-- Elementwise `astype('float32')`: `NaN` stays missing, bools map to
`1.0`/`0.0`, ints and floats keep their numeric value; a string is a
conversion error. -/
def castFloat32Val : Val → Option Val
  | Val.na => some Val.na
  | Val.vBool b => some (Val.vFloat (if b then 1 else 0))
  | Val.vInt n => some (Val.vFloat n)
  | Val.vFloat q => some (Val.vFloat q)
  | Val.vStr _ => none

/-- Apply a fallible function to every element of a list, failing as soon
as one application fails (elementwise `astype` / elementwise arithmetic). -/
def mapOpt (f : α → Option β) : List α → Option (List β)
  | [] => some []
  | a :: as => (f a).bind fun b => (mapOpt f as).map fun bs => b :: bs

/-- `astype('float32')` on a column. -/
def castColFloat32 (c : Column) : Option Column :=
  (mapOpt castFloat32Val c.values).map
    (fun vs => { c with dtype := Dtype.dtFloat32, values := vs })

/-- The categorical labels of the flchain transform. -/
def flchainCategorical : List String := ["sample.yr", "flc.grp"]

/-- The `processed=True` branch of `_Flchain.read_df`:
drop `chapter` and `Unnamed: 0`, keep the rows whose `creatinine` is not
missing, reset the index, replace `sex` by the boolean comparison with
`'M'`, cast `sample.yr` and `flc.grp` to category and every other column
to float32. -/
def flchainProcess (df : DF) : Option DF :=
  (dropCols df ["chapter", "Unnamed: 0"]).bind fun d1 =>
  (getCol d1 "creatinine").bind fun creat =>
  let d2 := locMask d1 (creat.values.map (fun v => !(isNA v)))
  (getCol d2 "sex").bind fun sexCol =>
  let d3 := setCol d2
    { name := "sex", dtype := Dtype.dtBool, values := sexCol.values.map eqStrM }
  (getCol d3 "sample.yr").bind fun _ =>
  (getCol d3 "flc.grp").bind fun _ =>
  let d4 := d3.map
    (fun c => if flchainCategorical.contains c.name then castColCategory c else c)
  mapOpt
    (fun c => if flchainCategorical.contains c.name then some c else castColFloat32 c)
    d4

/-- `_Flchain.read_df`: the raw table unchanged when `processed` is false,
else the processed transform. -/
def flchainReadDf (raw : DF) (processed : Bool) : Option DF :=
  if processed then flchainProcess raw else some raw

/-- Elementwise integer subtraction `series - k` of the nwtco transform:
`NaN` propagates, ints and floats shift by `k`, bools are promoted to
`0`/`1` first (pandas arithmetic); a string is a type error. -/
def subVal (v : Val) (k : Int) : Option Val :=
  match v with
  | Val.na => some Val.na
  | Val.vBool b => some (Val.vInt ((if b then 1 else 0) - k))
  | Val.vInt n => some (Val.vInt (n - k))
  | Val.vFloat q => some (Val.vFloat (q - (k : Rat)))
  | Val.vStr _ => none

/-- Modelled from the spec: `_label_cols_at_end` of the `_DatasetLoader`
base class (file `pycox/datasets/_dataset_loader.py`, which is not among
the sources).  The spec says the transforms "optionally reorder columns to
place categorical/label columns at the end", the label columns being the
dataset's duration and event columns; selecting an absent column is a
lookup failure. -/
def labelColsAtEnd (df : DF) (colDur colEvt : String) : Option DF :=
  (getCol df colDur).bind fun cd =>
  (getCol df colEvt).bind fun ce =>
  some (df.filter (fun c => !(c.name == colDur || c.name == colEvt)) ++ [cd, ce])

/-- The `processed=True` branch of `_Nwtco.read_df`: assign
`instit_2 = instit - 1`, `histol_2 = histol - 1`, `study_4 = study - 3`
and `stage = stage.astype('category')`, drop `Unnamed: 0`, `seqno`,
`instit`, `histol` and `study`, cast every column but `stage` to float32,
and move the label columns `edrel`, `rel` to the end. -/
def nwtcoProcess (df : DF) : Option DF :=
  (getCol df "instit").bind fun instit =>
  (getCol df "histol").bind fun histol =>
  (getCol df "study").bind fun study =>
  (getCol df "stage").bind fun stage =>
  (mapOpt (fun v => subVal v 1) instit.values).bind fun i2 =>
  (mapOpt (fun v => subVal v 1) histol.values).bind fun h2 =>
  (mapOpt (fun v => subVal v 3) study.values).bind fun s4 =>
  let d1 := setCol df { name := "instit_2", dtype := instit.dtype, values := i2 }
  let d2 := setCol d1 { name := "histol_2", dtype := histol.dtype, values := h2 }
  let d3 := setCol d2 { name := "study_4", dtype := study.dtype, values := s4 }
  let d4 := setCol d3 (castColCategory stage)
  (dropCols d4 ["Unnamed: 0", "seqno", "instit", "histol", "study"]).bind fun d5 =>
  (mapOpt (fun c => if c.name == "stage" then some c else castColFloat32 c) d5).bind
    fun d6 =>
  labelColsAtEnd d6 "edrel" "rel"

/-- `_Nwtco.read_df`. -/
def nwtcoReadDf (raw : DF) (processed : Bool) : Option DF :=
  if processed then nwtcoProcess raw else some raw

/-- The `processed=True` branch of `_Gbsg.read_df`: drop `Unnamed: 0` and
`pid`. -/
def gbsgProcess (df : DF) : Option DF :=
  dropCols df ["Unnamed: 0", "pid"]

/-- `_Gbsg.read_df`. -/
def gbsgReadDf (raw : DF) (processed : Bool) : Option DF :=
  if processed then gbsgProcess raw else some raw

/-- The `processed=True` branch of `_Rotterdam.read_df`: drop
`Unnamed: 0`, `pid`, `year`, `dtime`, `death` and `chemo`. -/
def rotterdamProcess (df : DF) : Option DF :=
  dropCols df ["Unnamed: 0", "pid", "year", "dtime", "death", "chemo"]

/-- `_Rotterdam.read_df`. -/
def rotterdamReadDf (raw : DF) (processed : Bool) : Option DF :=
  if processed then rotterdamProcess raw else some raw

/-- The four dataset classes of the file. -/
inductive Dataset where
  | flchain : Dataset
  | nwtco : Dataset
  | gbsg : Dataset
  | rotterdam : Dataset
deriving DecidableEq, Repr

/-- The `col_duration` class attribute of each dataset. -/
def colDuration : Dataset → String
  | Dataset.flchain => "futime"
  | Dataset.nwtco => "edrel"
  | Dataset.gbsg => "rfstime"
  | Dataset.rotterdam => "rtime"

/-- The `col_event` class attribute of each dataset. -/
def colEvent : Dataset → String
  | Dataset.flchain => "death"
  | Dataset.nwtco => "rel"
  | Dataset.gbsg => "status"
  | Dataset.rotterdam => "recur"

/-- The `processed=True` transform of each dataset. -/
def processFn : Dataset → DF → Option DF
  | Dataset.flchain => flchainProcess
  | Dataset.nwtco => nwtcoProcess
  | Dataset.gbsg => gbsgProcess
  | Dataset.rotterdam => rotterdamProcess

/-- The common shape of the four `read_df` methods: load the raw table
(here: take it as input), and apply the dataset's processed transform
exactly when `processed` is true. -/
def readDf (d : Dataset) (raw : DF) (processed : Bool) : Option DF :=
  if processed then processFn d raw else some raw

/-- A row of the Rdatasets registry (`datasets.csv`): the `Package`,
`Item` and `CSV` (download URL) fields used by the source. -/
structure RegistryRow where
  Package : String
  Item : String
  CSV : String
deriving DecidableEq, Repr

/-- The remote registry table. -/
abbrev Registry := List RegistryRow

/-- The lookup inside `download_from_rdatasets`: restrict the registry to
the rows of `package` (`.loc[lambda x: x['Package'] == package]`), index by
`Item`, and look the requested `name` up in that index. -/
def registryLookup (reg : Registry) (package name : String) : Option RegistryRow :=
  (reg.filter (fun r => r.Package == package)).find? (fun r => r.Item == name)

/-- `download_from_rdatasets(package, name)`: look the pair up in the
registry, raise `ValueError("Dataset {name} not found.")` when absent,
else fetch the CSV at the row's URL (the web is a partial map from URL to
table; a failed fetch propagates) and return it with the registry row. -/
def download_from_rdatasets (web : String → Option DF) (reg : Registry)
    (package name : String) : Except String (DF × RegistryRow) :=
  match registryLookup reg package name with
  | none => Except.error ("Dataset " ++ name ++ " not found.")
  | some info =>
    match web info.CSV with
    | none => Except.error "transport failure"
    | some df => Except.ok (df, info)

/-- The local cache: the feather files written so far, as a map from path
to stored table. -/
abbrev Cache := List (String × DF)

/-- `df.to_feather(path)`: record the table under the path, replacing any
previous file. -/
def cacheWrite (cache : Cache) (path : String) (df : DF) : Cache :=
  (path, df) :: cache.filter (fun e => !(e.fst == path))

/-- `_DatasetRdatasetsSurvival._download`: call `download_from_rdatasets`
with package `'survival'` and the dataset's name; on success write the
table to the dataset's path; an error propagates before any write, leaving
the cache untouched. -/
def survivalDownload (web : String → Option DF) (reg : Registry)
    (name path : String) (cache : Cache) : Except String Unit × Cache :=
  match download_from_rdatasets web reg "survival" name with
  | Except.error e => (Except.error e, cache)
  | Except.ok (df, _) => (Except.ok (), cacheWrite cache path df)

/-- The numeric content of a cell, when it has one (bools count as `0`/`1`
as in pandas arithmetic); used to state value-level properties of the
transforms. -/
def toRat : Val → Option Rat
  | Val.na => none
  | Val.vBool b => some (if b then 1 else 0)
  | Val.vInt n => some (n : Rat)
  | Val.vFloat q => some q
  | Val.vStr _ => none

/-- A small concrete raw flchain table (column layout of the real CSV). -/
def rawFlchainSample : DF :=
  [⟨"Unnamed: 0", Dtype.dtInt64, [Val.vInt 0, Val.vInt 1]⟩,
   ⟨"age", Dtype.dtFloat64, [Val.vFloat 60, Val.vFloat 70]⟩,
   ⟨"sex", Dtype.dtObject, [Val.vStr "M", Val.vStr "F"]⟩,
   ⟨"sample.yr", Dtype.dtInt64, [Val.vInt 1997, Val.vInt 1998]⟩,
   ⟨"flc.grp", Dtype.dtInt64, [Val.vInt 1, Val.vInt 2]⟩,
   ⟨"creatinine", Dtype.dtFloat64, [Val.vFloat 1, Val.na]⟩,
   ⟨"futime", Dtype.dtInt64, [Val.vInt 85, Val.vInt 1281]⟩,
   ⟨"death", Dtype.dtInt64, [Val.vInt 1, Val.vInt 0]⟩,
   ⟨"chapter", Dtype.dtObject, [Val.vStr "Circulatory", Val.na]⟩]

/-- The processed table of `rawFlchainSample`. -/
def outFlchainSample : DF :=
  [⟨"age", Dtype.dtFloat32, [Val.vFloat 60]⟩,
   ⟨"sex", Dtype.dtFloat32, [Val.vFloat 1]⟩,
   ⟨"sample.yr", Dtype.dtCategory, [Val.vInt 1997]⟩,
   ⟨"flc.grp", Dtype.dtCategory, [Val.vInt 1]⟩,
   ⟨"creatinine", Dtype.dtFloat32, [Val.vFloat 1]⟩,
   ⟨"futime", Dtype.dtFloat32, [Val.vFloat 85]⟩,
   ⟨"death", Dtype.dtFloat32, [Val.vFloat 1]⟩]

/-- A small concrete raw nwtco table. -/
def rawNwtcoSample : DF :=
  [⟨"Unnamed: 0", Dtype.dtInt64, [Val.vInt 0]⟩,
   ⟨"seqno", Dtype.dtInt64, [Val.vInt 1]⟩,
   ⟨"instit", Dtype.dtInt64, [Val.vInt 2]⟩,
   ⟨"histol", Dtype.dtInt64, [Val.vInt 1]⟩,
   ⟨"stage", Dtype.dtInt64, [Val.vInt 3]⟩,
   ⟨"study", Dtype.dtInt64, [Val.vInt 4]⟩,
   ⟨"rel", Dtype.dtInt64, [Val.vInt 0]⟩,
   ⟨"edrel", Dtype.dtFloat64, [Val.vFloat 1200]⟩,
   ⟨"age", Dtype.dtInt64, [Val.vInt 25]⟩]

/-- The processed table of `rawNwtcoSample`. -/
def outNwtcoSample : DF :=
  [⟨"stage", Dtype.dtCategory, [Val.vInt 3]⟩,
   ⟨"age", Dtype.dtFloat32, [Val.vFloat 25]⟩,
   ⟨"instit_2", Dtype.dtFloat32, [Val.vFloat 1]⟩,
   ⟨"histol_2", Dtype.dtFloat32, [Val.vFloat 0]⟩,
   ⟨"study_4", Dtype.dtFloat32, [Val.vFloat 1]⟩,
   ⟨"edrel", Dtype.dtFloat32, [Val.vFloat 1200]⟩,
   ⟨"rel", Dtype.dtFloat32, [Val.vFloat 0]⟩]

/-- A small concrete raw gbsg table. -/
def rawGbsgSample : DF :=
  [⟨"Unnamed: 0", Dtype.dtInt64, [Val.vInt 0]⟩,
   ⟨"pid", Dtype.dtInt64, [Val.vInt 132]⟩,
   ⟨"age", Dtype.dtInt64, [Val.vInt 49]⟩,
   ⟨"rfstime", Dtype.dtInt64, [Val.vInt 1838]⟩,
   ⟨"status", Dtype.dtInt64, [Val.vInt 0]⟩]

/-- A small concrete raw rotterdam table. -/
def rawRotterdamSample : DF :=
  [⟨"Unnamed: 0", Dtype.dtInt64, [Val.vInt 0]⟩,
   ⟨"pid", Dtype.dtInt64, [Val.vInt 1]⟩,
   ⟨"year", Dtype.dtInt64, [Val.vInt 1992]⟩,
   ⟨"age", Dtype.dtInt64, [Val.vInt 74]⟩,
   ⟨"rtime", Dtype.dtInt64, [Val.vInt 1799]⟩,
   ⟨"recur", Dtype.dtInt64, [Val.vInt 0]⟩,
   ⟨"dtime", Dtype.dtInt64, [Val.vInt 1799]⟩,
   ⟨"death", Dtype.dtInt64, [Val.vInt 0]⟩,
   ⟨"chemo", Dtype.dtInt64, [Val.vInt 0]⟩]

/-- A small concrete registry, with an `iris` row outside the `survival`
package. -/
def regSample : Registry :=
  [⟨"datasets", "iris",
    "https://raw.githubusercontent.com/vincentarelbundock/Rdatasets/master/csv/datasets/iris.csv"⟩,
   ⟨"survival", "flchain",
    "https://raw.githubusercontent.com/vincentarelbundock/Rdatasets/master/csv/survival/flchain.csv"⟩]


/-- The processed table of `rawGbsgSample`. -/
def outGbsgSample : DF :=
  [⟨"age", Dtype.dtInt64, [Val.vInt 49]⟩,
   ⟨"rfstime", Dtype.dtInt64, [Val.vInt 1838]⟩,
   ⟨"status", Dtype.dtInt64, [Val.vInt 0]⟩]

/-- The processed table of `rawRotterdamSample`. -/
def outRotterdamSample : DF :=
  [⟨"age", Dtype.dtInt64, [Val.vInt 74]⟩,
   ⟨"rtime", Dtype.dtInt64, [Val.vInt 1799]⟩,
   ⟨"recur", Dtype.dtInt64, [Val.vInt 0]⟩]

/-! ## General lemmas about the table operations -/

theorem getCol_name {df : DF} {n : String} {c : Column}
    (h : getCol df n = some c) : c.name = n := by
  induction df with
  | nil => simp [getCol] at h
  | cons c0 cs ih =>
    simp only [getCol] at h
    split at h
    · next heq => cases h; exact eq_of_beq heq
    · exact ih h

theorem getCol_mem {df : DF} {n : String} {c : Column}
    (h : getCol df n = some c) : c ∈ df := by
  induction df with
  | nil => simp [getCol] at h
  | cons c0 cs ih =>
    simp only [getCol] at h
    split at h
    · cases h; exact List.mem_cons_self _ _
    · exact List.mem_cons_of_mem _ (ih h)

theorem hasCol_eq_isSome (df : DF) (n : String) :
    hasCol df n = (getCol df n).isSome := by
  induction df with
  | nil => rfl
  | cons c0 cs ih =>
    cases h0 : c0.name == n <;> simp [hasCol, getCol, h0, ih]

theorem getCol_append_left {l1 l2 : DF} {n : String} {c : Column}
    (h : getCol l1 n = some c) : getCol (l1 ++ l2) n = some c := by
  induction l1 with
  | nil => simp [getCol] at h
  | cons c0 cs ih =>
    simp only [getCol, List.cons_append] at h ⊢
    split at h <;> simp_all [getCol]

theorem getCol_append_right {l1 l2 : DF} {n : String}
    (h : getCol l1 n = none) : getCol (l1 ++ l2) n = getCol l2 n := by
  induction l1 with
  | nil => simp
  | cons c0 cs ih =>
    simp only [getCol, List.cons_append] at h ⊢
    split at h
    · cases h
    · next heq => rw [if_neg heq]; exact ih h

theorem hasCol_append (l1 l2 : DF) (n : String) :
    hasCol (l1 ++ l2) n = (hasCol l1 n || hasCol l2 n) := by
  induction l1 with
  | nil => simp [hasCol]
  | cons c0 cs ih =>
    show (c0.name == n || hasCol (cs ++ l2) n) =
      ((c0.name == n || hasCol cs n) || hasCol l2 n)
    rw [ih, Bool.or_assoc]

theorem getCol_filter_keep (df : DF) (p : Column → Bool) (n : String)
    (hp : ∀ c : Column, c.name = n → p c = true) :
    getCol (df.filter p) n = getCol df n := by
  induction df with
  | nil => rfl
  | cons c cs ih =>
    rw [List.filter_cons]
    by_cases h0 : c.name = n
    · rw [hp c h0]
      simp [getCol, h0, ih]
    · cases hpc : p c <;> simp [getCol, h0, ih]

theorem hasCol_filter_keep (df : DF) (p : Column → Bool) (n : String)
    (hp : ∀ c : Column, c.name = n → p c = true) :
    hasCol (df.filter p) n = hasCol df n := by
  rw [hasCol_eq_isSome, hasCol_eq_isSome, getCol_filter_keep df p n hp]

theorem hasCol_filter_false (df : DF) (p : Column → Bool) (n : String)
    (hp : ∀ c : Column, c.name = n → p c = false) :
    hasCol (df.filter p) n = false := by
  induction df with
  | nil => rfl
  | cons c cs ih =>
    rw [List.filter_cons]
    cases hpc : p c
    · exact ih
    · have hcn : c.name ≠ n := by
        intro h
        rw [hp c h] at hpc
        cases hpc
      simp [hasCol, hcn, ih]

theorem getCol_map_presName (f : Column → Column) (hf : ∀ c, (f c).name = c.name)
    (df : DF) (n : String) : getCol (df.map f) n = (getCol df n).map f := by
  induction df with
  | nil => rfl
  | cons c cs ih =>
    rw [List.map_cons]
    simp only [getCol, hf c]
    by_cases h0 : c.name = n <;> simp [h0, ih]

theorem hasCol_map_presName (f : Column → Column) (hf : ∀ c, (f c).name = c.name)
    (df : DF) (n : String) : hasCol (df.map f) n = hasCol df n := by
  rw [hasCol_eq_isSome, hasCol_eq_isSome, getCol_map_presName f hf df n]
  cases getCol df n <;> rfl

theorem getCol_replaceAll_self (df : DF) (c : Column) (h : hasCol df c.name = true) :
    getCol (df.map (fun c0 => if c0.name == c.name then c else c0)) c.name = some c := by
  induction df with
  | nil => simp [hasCol] at h
  | cons c0 cs ih =>
    rw [List.map_cons]
    by_cases h0 : c0.name = c.name
    · simp [getCol, h0]
    · have hrw : (if c0.name == c.name then c else c0) = c0 := by simp [h0]
      rw [hrw]
      simp only [getCol]
      rw [if_neg (by simpa using h0)]
      apply ih
      simpa [hasCol, h0] using h

theorem getCol_replaceAll_other (df : DF) (c : Column) (n : String) (hn : n ≠ c.name) :
    getCol (df.map (fun c0 => if c0.name == c.name then c else c0)) n = getCol df n := by
  induction df with
  | nil => rfl
  | cons c0 cs ih =>
    rw [List.map_cons]
    by_cases h0 : c0.name = c.name
    · rw [if_pos (beq_iff_eq.mpr h0)]
      simp only [getCol]
      rw [if_neg (show ¬(c.name == n) = true by simp; exact fun hh => hn hh.symm)]
      rw [if_neg (show ¬(c0.name == n) = true by
        simp; rw [h0]; exact fun hh => hn hh.symm)]
      exact ih
    · rw [if_neg (by simpa using h0)]
      simp only [getCol]
      by_cases h1 : c0.name = n
      · rw [if_pos (beq_iff_eq.mpr h1), if_pos (beq_iff_eq.mpr h1)]
      · rw [if_neg (by simpa using h1), if_neg (by simpa using h1)]
        exact ih

theorem getCol_setCol_self (df : DF) (c : Column) :
    getCol (setCol df c) c.name = some c := by
  rw [setCol]
  split
  · next hh => exact getCol_replaceAll_self df c hh
  · next hh =>
    have hnone : getCol df c.name = none := by
      rw [hasCol_eq_isSome] at hh
      cases hg : getCol df c.name
      · rfl
      · rw [hg] at hh; simp at hh
    rw [getCol_append_right hnone]
    simp [getCol]

theorem getCol_setCol_other (df : DF) (c : Column) (n : String) (hn : n ≠ c.name) :
    getCol (setCol df c) n = getCol df n := by
  rw [setCol]
  split
  · exact getCol_replaceAll_other df c n hn
  · cases hg : getCol df n
    · rw [getCol_append_right hg]
      have hcn : c.name ≠ n := fun hh => hn hh.symm
      simp [getCol, hcn]
    · exact getCol_append_left hg

theorem hasCol_setCol (df : DF) (c : Column) (n : String) :
    hasCol (setCol df c) n = (hasCol df n || c.name == n) := by
  rw [setCol]
  split
  · next hh =>
    rw [hasCol_map_presName _ (fun c0 => by by_cases h0 : c0.name = c.name <;> simp [h0])]
    by_cases h0 : c.name = n
    · rw [← h0]; simp [hh]
    · simp [h0]
  · rw [hasCol_append]
    simp [hasCol]

theorem mapOpt_nil_eq {f : α → Option β} {ys : List β}
    (h : mapOpt f [] = some ys) : ys = [] := by
  simpa [mapOpt] using h.symm

theorem mapOpt_cons_eq {f : α → Option β} {a : α} {as : List α} {ys : List β}
    (h : mapOpt f (a :: as) = some ys) :
    ∃ b bs, f a = some b ∧ mapOpt f as = some bs ∧ ys = b :: bs := by
  simp only [mapOpt, Option.bind_eq_some, Option.map_eq_some'] at h
  obtain ⟨b, hb, bs, hbs, hys⟩ := h
  exact ⟨b, bs, hb, hbs, hys.symm⟩

theorem mapOpt_some_forall {f : α → Option β} {xs : List α} {ys : List β}
    (h : mapOpt f xs = some ys) : ∀ x ∈ xs, ∃ y, f x = some y := by
  induction xs generalizing ys with
  | nil => intro x hx; cases hx
  | cons a as ih =>
    obtain ⟨b, bs, hb, hbs, rfl⟩ := mapOpt_cons_eq h
    intro x hx
    rcases List.mem_cons.mp hx with rfl | hx
    · exact ⟨b, hb⟩
    · exact ih hbs x hx

theorem mapOpt_mem {f : α → Option β} {xs : List α} {ys : List β}
    (h : mapOpt f xs = some ys) : ∀ y ∈ ys, ∃ x ∈ xs, f x = some y := by
  induction xs generalizing ys with
  | nil => rw [mapOpt_nil_eq h]; intro y hy; cases hy
  | cons a as ih =>
    obtain ⟨b, bs, hb, hbs, rfl⟩ := mapOpt_cons_eq h
    intro y hy
    rcases List.mem_cons.mp hy with rfl | hy
    · exact ⟨a, List.mem_cons_self _ _, hb⟩
    · obtain ⟨x, hx, hfx⟩ := ih hbs y hy
      exact ⟨x, List.mem_cons_of_mem _ hx, hfx⟩

theorem mapOpt_length {f : α → Option β} {xs : List α} {ys : List β}
    (h : mapOpt f xs = some ys) : ys.length = xs.length := by
  induction xs generalizing ys with
  | nil => rw [mapOpt_nil_eq h]; rfl
  | cons a as ih =>
    obtain ⟨b, bs, _, hbs, rfl⟩ := mapOpt_cons_eq h
    simp [ih hbs]

theorem getCol_mapOpt_presName {g : Column → Option Column}
    (hg : ∀ c c', g c = some c' → c'.name = c.name) {df out : DF}
    (h : mapOpt g df = some out) (n : String) :
    getCol out n = (getCol df n).bind g := by
  induction df generalizing out with
  | nil => rw [mapOpt_nil_eq h]; rfl
  | cons c cs ih =>
    obtain ⟨c', cs', hc', hcs', rfl⟩ := mapOpt_cons_eq h
    simp only [getCol, hg c c' hc']
    by_cases h0 : c.name = n
    · simp [h0, hc']
    · have hne : ¬((c.name == n) = true) := by simpa using h0
      rw [if_neg hne, if_neg hne]
      exact ih hcs'

theorem hasCol_mapOpt_presName {g : Column → Option Column}
    (hg : ∀ c c', g c = some c' → c'.name = c.name) {df out : DF}
    (h : mapOpt g df = some out) (n : String) :
    hasCol out n = hasCol df n := by
  rw [hasCol_eq_isSome, hasCol_eq_isSome, getCol_mapOpt_presName hg h n]
  cases hgc : getCol df n
  · rfl
  · obtain ⟨y, hy⟩ := mapOpt_some_forall h _ (getCol_mem hgc)
    simp [hy]

theorem keepMasked_self_not_na (vs : List Val) :
    ∀ v ∈ keepMasked vs (vs.map (fun x => !(isNA x))), isNA v = false := by
  induction vs with
  | nil => intro v hv; cases hv
  | cons x xs ih =>
    rw [List.map_cons]
    cases hx : isNA x
    · rw [show keepMasked (x :: xs) ((!false) :: xs.map (fun x => !(isNA x))) =
          x :: keepMasked xs (xs.map (fun x => !(isNA x))) by
        simp [keepMasked]]
      intro v hv
      rcases List.mem_cons.mp hv with rfl | hv
      · exact hx
      · exact ih v hv
    · rw [show keepMasked (x :: xs) ((!true) :: xs.map (fun x => !(isNA x))) =
          keepMasked xs (xs.map (fun x => !(isNA x))) by
        simp [keepMasked]]
      exact ih

theorem castColFloat32_eq {c c' : Column} (h : castColFloat32 c = some c') :
    c'.name = c.name ∧ c'.dtype = Dtype.dtFloat32 ∧
      mapOpt castFloat32Val c.values = some c'.values := by
  rw [castColFloat32] at h
  simp only [Option.map_eq_some'] at h
  obtain ⟨vs, hvs, rfl⟩ := h
  exact ⟨rfl, rfl, hvs⟩

theorem castFloat32Val_not_na {v w : Val} (hv : isNA v = false)
    (h : castFloat32Val v = some w) : isNA w = false := by
  cases v with
  | na => simp [isNA] at hv
  | vBool b => simp only [castFloat32Val, Option.some.injEq] at h; rw [← h]; rfl
  | vInt n => simp only [castFloat32Val, Option.some.injEq] at h; rw [← h]; rfl
  | vFloat q => simp only [castFloat32Val, Option.some.injEq] at h; rw [← h]; rfl
  | vStr s => simp [castFloat32Val] at h

theorem castFloat32Val_toRat {v : Val} {q : Rat} (h : toRat v = some q) :
    ∃ w, castFloat32Val v = some w ∧ toRat w = some q := by
  cases v with
  | na => simp [toRat] at h
  | vBool b =>
    refine ⟨Val.vFloat (if b then 1 else 0), rfl, ?_⟩
    simp only [toRat, Option.some.injEq] at h ⊢
    exact h
  | vInt n =>
    refine ⟨Val.vFloat n, rfl, ?_⟩
    simp only [toRat, Option.some.injEq] at h ⊢
    exact h
  | vFloat p => exact ⟨Val.vFloat p, rfl, h⟩
  | vStr s => simp [toRat] at h

theorem subVal_toRat {v : Val} {q : Rat} (k : Int) (h : toRat v = some q) :
    ∃ w, subVal v k = some w ∧ toRat w = some (q - (k : Rat)) := by
  cases v with
  | na => simp [toRat] at h
  | vBool b =>
    refine ⟨Val.vInt ((if b then 1 else 0) - k), rfl, ?_⟩
    simp only [toRat, Option.some.injEq] at h ⊢
    rw [← h]
    cases b <;> push_cast <;> ring
  | vInt n =>
    refine ⟨Val.vInt (n - k), rfl, ?_⟩
    simp only [toRat, Option.some.injEq] at h ⊢
    rw [← h]
    push_cast
    ring
  | vFloat p =>
    refine ⟨Val.vFloat (p - (k : Rat)), rfl, ?_⟩
    simp only [toRat, Option.some.injEq] at h ⊢
    rw [← h]
  | vStr s => simp [toRat] at h

theorem subVal_castable {v w : Val} {k : Int} (h : subVal v k = some w) :
    ∃ u, castFloat32Val w = some u := by
  cases v with
  | na => cases h; exact ⟨Val.na, rfl⟩
  | vBool b => cases h; exact ⟨_, rfl⟩
  | vInt n => cases h; exact ⟨_, rfl⟩
  | vFloat p => cases h; exact ⟨_, rfl⟩
  | vStr s => cases h

theorem hasCol_of_getCol_some {df : DF} {n : String} {c : Column}
    (h : getCol df n = some c) : hasCol df n = true := by
  rw [hasCol_eq_isSome, h]
  rfl

theorem dropCols_eq_filter {df out : DF} {labels : List String}
    (h : dropCols df labels = some out) :
    out = df.filter (fun c => !(labels.contains c.name)) := by
  rw [dropCols] at h
  split at h
  · exact (Option.some.inj h).symm
  · cases h

theorem labelColsAtEnd_eq {df out : DF} {a b : String}
    (h : labelColsAtEnd df a b = some out) :
    ∃ cd ce, getCol df a = some cd ∧ getCol df b = some ce ∧
      out = df.filter (fun c => !(c.name == a || c.name == b)) ++ [cd, ce] := by
  rw [labelColsAtEnd] at h
  simp only [Option.bind_eq_some, Option.some.injEq] at h
  obtain ⟨cd, hcd, ce, hce, hout⟩ := h
  exact ⟨cd, ce, hcd, hce, hout.symm⟩

theorem getCol_labelColsAtEnd_other {df out : DF} {a b n : String}
    (h : labelColsAtEnd df a b = some out) (hna : n ≠ a) (hnb : n ≠ b) :
    getCol out n = getCol df n := by
  obtain ⟨cd, ce, hcd, hce, rfl⟩ := labelColsAtEnd_eq h
  have hfilter : getCol (df.filter (fun c => !(c.name == a || c.name == b))) n =
      getCol df n := by
    apply getCol_filter_keep
    intro c hc
    simp [hc, hna, hnb]
  cases hg : getCol df n with
  | none =>
    rw [getCol_append_right (hfilter.trans hg)]
    have ha : cd.name ≠ n := by rw [getCol_name hcd]; exact fun hh => hna hh.symm
    have hb2 : ce.name ≠ n := by rw [getCol_name hce]; exact fun hh => hnb hh.symm
    simp [getCol, ha, hb2]
  | some c =>
    exact getCol_append_left (hfilter.trans hg)

theorem hasCol_labelColsAtEnd_labels {df out : DF} {a b : String}
    (h : labelColsAtEnd df a b = some out) :
    hasCol out a = true ∧ hasCol out b = true := by
  obtain ⟨cd, ce, hcd, hce, rfl⟩ := labelColsAtEnd_eq h
  rw [hasCol_append, hasCol_append]
  constructor
  · have : hasCol [cd, ce] a = true := by
      simp [hasCol, getCol_name hcd]
    simp [this]
  · have : hasCol [cd, ce] b = true := by
      simp [hasCol, getCol_name hce]
    simp [this]

theorem hasCol_labelColsAtEnd_other {df out : DF} {a b n : String}
    (h : labelColsAtEnd df a b = some out) (hna : n ≠ a) (hnb : n ≠ b) :
    hasCol out n = hasCol df n := by
  rw [hasCol_eq_isSome, hasCol_eq_isSome, getCol_labelColsAtEnd_other h hna hnb]

theorem castStep_presName (cats : List String) (c c' : Column)
    (h : (if cats.contains c.name then some c else castColFloat32 c) = some c') :
    c'.name = c.name := by
  split at h
  · cases h; rfl
  · exact (castColFloat32_eq h).1

theorem stageStep_presName (c c' : Column)
    (h : (if c.name == "stage" then some c else castColFloat32 c) = some c') :
    c'.name = c.name := by
  split at h
  · cases h; rfl
  · exact (castColFloat32_eq h).1

theorem catStep_presName (cats : List String) :
    ∀ c : Column, ((fun c => if cats.contains c.name then castColCategory c else c) c).name
      = c.name := by
  intro c
  show (if cats.contains c.name then castColCategory c else c).name = c.name
  by_cases h0 : cats.contains c.name = true
  · rw [if_pos h0]
    rfl
  · rw [if_neg h0]

theorem shiftCast_chain {vs i2 : List Val} {k : Int}
    (h : mapOpt (fun v => subVal v k) vs = some i2) :
    ∃ ws, mapOpt castFloat32Val i2 = some ws ∧ ws.length = vs.length ∧
      ∀ (i : Nat) (v : Val) (q : Rat), vs[i]? = some v → toRat v = some q →
        ∃ w, ws[i]? = some w ∧ toRat w = some (q - (k : Rat)) := by
  induction vs generalizing i2 with
  | nil =>
    rw [mapOpt_nil_eq h]
    refine ⟨[], rfl, rfl, ?_⟩
    intro i v q hv hq
    simp at hv
  | cons a as ih =>
    obtain ⟨b, bs, hb, hbs, rfl⟩ := mapOpt_cons_eq h
    obtain ⟨ws, hws, hlen, hptr⟩ := ih hbs
    obtain ⟨u, hu⟩ := subVal_castable hb
    refine ⟨u :: ws, ?_, ?_, ?_⟩
    · simp [mapOpt, hu, hws]
    · simp [hlen]
    · intro i v q hv hq
      cases i with
      | zero =>
        rw [List.getElem?_cons_zero] at hv
        cases hv
        obtain ⟨w, hw, hwR⟩ := subVal_toRat k hq
        rw [hb] at hw
        cases hw
        obtain ⟨u', hu', huR⟩ := castFloat32Val_toRat hwR
        rw [hu] at hu'
        cases hu'
        exact ⟨u, by simp, huR⟩
      | succ j =>
        rw [List.getElem?_cons_succ] at hv
        obtain ⟨w, hw, hwR⟩ := hptr j v q hv hq
        exact ⟨w, by simpa using hw, hwR⟩

theorem mapOpt_cast_eqStrM (vs : List Val) :
    mapOpt castFloat32Val (vs.map eqStrM) =
      some (vs.map (fun v => Val.vFloat (if v == Val.vStr "M" then 1 else 0))) := by
  induction vs with
  | nil => rfl
  | cons a as ih =>
    rw [List.map_cons, List.map_cons]
    simp [mapOpt, eqStrM, castFloat32Val, ih]

theorem registryLookup_eq_none {reg : Registry} {package name : String}
    (h : ∀ r ∈ reg, ¬(r.Package = package ∧ r.Item = name)) :
    registryLookup reg package name = none := by
  rw [registryLookup, List.find?_eq_none]
  intro r hr hitem
  have hmem := List.mem_filter.mp hr
  exact h r hmem.1 ⟨eq_of_beq hmem.2, eq_of_beq hitem⟩

/-! ## The claims -/

/-- C4: for every dataset and every raw table, `read_df(processed=False)`
returns the raw table unmodified — the processed-mode transform is skipped
entirely, so no column is dropped, cast, derived or reordered. -/
theorem claim_C4_raw_mode_identity (d : Dataset) (raw : DF) :
    readDf d raw false = some raw := rfl

/-- C7: every dataset's processed transform is deterministic — applying
`read_df`'s processed mode to equal raw tables yields equal outputs. -/
theorem claim_C7_deterministic (d : Dataset) (raw1 raw2 : DF) (h : raw1 = raw2) :
    readDf d raw1 true = readDf d raw2 true := by
  rw [h]

/-- Witness for C7: the determinism theorem applied to the gbsg transform
at a concrete raw table. -/
theorem claim_C7_witness :
    readDf Dataset.gbsg rawGbsgSample true = readDf Dataset.gbsg rawGbsgSample true :=
  claim_C7_deterministic Dataset.gbsg rawGbsgSample rawGbsgSample rfl

/-- C6: the processed transforms of gbsg and rotterdam only drop the
listed columns: the output is exactly the raw table restricted to the
non-dropped columns, so every other column keeps its values, dtype and row
order, and no row is added or removed. -/
theorem claim_C6_drop_only :
    (∀ raw out, gbsgProcess raw = some out →
      out = raw.filter
        (fun c => !((["Unnamed: 0", "pid"] : List String).contains c.name))) ∧
    (∀ raw out, rotterdamProcess raw = some out →
      out = raw.filter
        (fun c => !((["Unnamed: 0", "pid", "year", "dtime", "death", "chemo"] :
          List String).contains c.name))) :=
  ⟨fun _ _ h => dropCols_eq_filter h, fun _ _ h => dropCols_eq_filter h⟩

/-- Witness for C6: the rotterdam half applied at a concrete raw table. -/
theorem claim_C6_witness :
    outRotterdamSample = rawRotterdamSample.filter
      (fun c => !((["Unnamed: 0", "pid", "year", "dtime", "death", "chemo"] :
        List String).contains c.name)) :=
  claim_C6_drop_only.2 rawRotterdamSample outRotterdamSample (by decide)

/-- C3: when the registry has no row with the requested Package and Item,
`download_from_rdatasets` fails with the not-found `ValueError`, and the
download step of `_DatasetRdatasetsSurvival` propagates the error before
its `to_feather` write, leaving the cache exactly as it was. -/
theorem claim_C3_notfound_no_write :
    (∀ (web : String → Option DF) (reg : Registry) (package name : String),
      (∀ r ∈ reg, ¬(r.Package = package ∧ r.Item = name)) →
      download_from_rdatasets web reg package name =
        Except.error ("Dataset " ++ name ++ " not found.")) ∧
    (∀ (web : String → Option DF) (reg : Registry) (name path : String) (cache : Cache),
      (∀ r ∈ reg, ¬(r.Package = "survival" ∧ r.Item = name)) →
      survivalDownload web reg name path cache =
        (Except.error ("Dataset " ++ name ++ " not found."), cache)) := by
  constructor
  · intro web reg package name h
    simp only [download_from_rdatasets, registryLookup_eq_none h]
  · intro web reg name path cache h
    simp only [survivalDownload, download_from_rdatasets, registryLookup_eq_none h]

/-- Witness for C3: a registry without any `survival`/`nwtco` row, on
which the download step errors and returns the empty cache unchanged. -/
theorem claim_C3_witness :
    (∀ r ∈ regSample, ¬(r.Package = "survival" ∧ r.Item = "nwtco")) ∧
    survivalDownload (fun _ => none) regSample "nwtco" "nwtco.feather" [] =
      (Except.error ("Dataset " ++ "nwtco" ++ " not found."), []) :=
  ⟨by decide,
   claim_C3_notfound_no_write.2 (fun _ => none) regSample "nwtco" "nwtco.feather" []
     (by decide)⟩

/-- C9: the registry lookup is package-scoped — an item name that occurs
in the registry only under a different package still yields the not-found
error rather than that other package's row. -/
theorem claim_C9_package_scoped :
    ∀ (web : String → Option DF) (reg : Registry) (package name : String),
      (∃ r ∈ reg, r.Item = name) →
      (∀ r ∈ reg, r.Item = name → r.Package ≠ package) →
      download_from_rdatasets web reg package name =
        Except.error ("Dataset " ++ name ++ " not found.") := by
  intro web reg package name hex h
  have hn : ∀ r ∈ reg, ¬(r.Package = package ∧ r.Item = name) :=
    fun r hr hc => h r hr hc.2 hc.1
  simp only [download_from_rdatasets, registryLookup_eq_none hn]

/-- Witness for C9: `iris` exists in the registry but only under the
`datasets` package, so requesting it from `survival` errors. -/
theorem claim_C9_witness :
    (∃ r ∈ regSample, r.Item = "iris") ∧
    (∀ r ∈ regSample, r.Item = "iris" → r.Package ≠ "survival") ∧
    download_from_rdatasets (fun _ => none) regSample "survival" "iris" =
      Except.error ("Dataset " ++ "iris" ++ " not found.") :=
  ⟨by decide, by decide,
   claim_C9_package_scoped (fun _ => none) regSample "survival" "iris"
     (by decide) (by decide)⟩

theorem flchainProcess_spec {raw out : DF} (h : flchainProcess raw = some out) :
    ∃ d1 creat sexCol y g,
      dropCols raw ["chapter", "Unnamed: 0"] = some d1 ∧
      getCol d1 "creatinine" = some creat ∧
      getCol (locMask d1 (creat.values.map (fun v => !(isNA v)))) "sex" = some sexCol ∧
      getCol (setCol (locMask d1 (creat.values.map (fun v => !(isNA v))))
        { name := "sex", dtype := Dtype.dtBool, values := sexCol.values.map eqStrM })
        "sample.yr" = some y ∧
      getCol (setCol (locMask d1 (creat.values.map (fun v => !(isNA v))))
        { name := "sex", dtype := Dtype.dtBool, values := sexCol.values.map eqStrM })
        "flc.grp" = some g ∧
      mapOpt
        (fun c => if flchainCategorical.contains c.name then some c else castColFloat32 c)
        ((setCol (locMask d1 (creat.values.map (fun v => !(isNA v))))
          { name := "sex", dtype := Dtype.dtBool, values := sexCol.values.map eqStrM }).map
            (fun c => if flchainCategorical.contains c.name then castColCategory c else c))
        = some out := by
  simp only [flchainProcess, Option.bind_eq_some] at h
  obtain ⟨d1, h1, creat, h2, sexCol, h3, y, h4, g, h5, h6⟩ := h
  exact ⟨d1, creat, sexCol, y, g, h1, h2, h3, h4, h5, h6⟩

theorem flchainFloatTail (d3 out : DF) (n : String) (c : Column)
    (hn : flchainCategorical.contains n = false)
    (hc : getCol d3 n = some c)
    (h6 : mapOpt
      (fun c => if flchainCategorical.contains c.name then some c else castColFloat32 c)
      (d3.map (fun c => if flchainCategorical.contains c.name then castColCategory c else c))
      = some out) :
    ∃ w, getCol out n = some w ∧ castColFloat32 c = some w := by
  have hcname : c.name = n := getCol_name hc
  have hd4 : getCol (d3.map (fun c => if flchainCategorical.contains c.name
      then castColCategory c else c)) n = some c := by
    rw [getCol_map_presName _ (catStep_presName flchainCategorical) d3 n, hc,
      Option.map_some']
    rw [if_neg (by rw [hcname, hn]; simp)]
  obtain ⟨w, hw0⟩ := mapOpt_some_forall h6 _ (getCol_mem hd4)
  have hw : castColFloat32 c = some w := by
    have hw1 : (if flchainCategorical.contains c.name then some c
        else castColFloat32 c) = some w := hw0
    rwa [if_neg (by rw [hcname, hn]; simp)] at hw1
  have hout := getCol_mapOpt_presName
    (fun a b hb => castStep_presName flchainCategorical a b hb) h6 n
  rw [hd4] at hout
  refine ⟨w, ?_, hw⟩
  rw [hout]
  show (if flchainCategorical.contains c.name then some c else castColFloat32 c) = some w
  rw [if_neg (by rw [hcname, hn]; simp)]
  exact hw

theorem flchainCatTail (d3 out : DF) (n : String) (c : Column)
    (hn : flchainCategorical.contains n = true)
    (hc : getCol d3 n = some c)
    (h6 : mapOpt
      (fun c => if flchainCategorical.contains c.name then some c else castColFloat32 c)
      (d3.map (fun c => if flchainCategorical.contains c.name then castColCategory c else c))
      = some out) :
    getCol out n = some (castColCategory c) := by
  have hcname : c.name = n := getCol_name hc
  have hd4 : getCol (d3.map (fun c => if flchainCategorical.contains c.name
      then castColCategory c else c)) n = some (castColCategory c) := by
    rw [getCol_map_presName _ (catStep_presName flchainCategorical) d3 n, hc,
      Option.map_some']
    rw [if_pos (show flchainCategorical.contains c.name = true by rw [hcname]; exact hn)]
  have hout := getCol_mapOpt_presName
    (fun a b hb => castStep_presName flchainCategorical a b hb) h6 n
  rw [hd4] at hout
  rw [hout]
  show (if flchainCategorical.contains (castColCategory c).name
    then some (castColCategory c) else castColFloat32 (castColCategory c))
    = some (castColCategory c)
  rw [if_pos (show flchainCategorical.contains (castColCategory c).name = true by
    show flchainCategorical.contains c.name = true
    rw [hcname]
    exact hn)]

theorem flchain_creatinine_out {raw out : DF} (h : flchainProcess raw = some out) :
    ∃ c, getCol out "creatinine" = some c ∧ ∀ v ∈ c.values, isNA v = false := by
  obtain ⟨d1, creat, sexCol, y, g, h1, h2, h3, h4, h5, h6⟩ := flchainProcess_spec h
  have hd2 : getCol (locMask d1 (creat.values.map (fun v => !(isNA v)))) "creatinine" =
      some { creat with
        values := keepMasked creat.values (creat.values.map (fun v => !(isNA v))) } := by
    rw [locMask, getCol_map_presName
      (fun c => { c with
        values := keepMasked c.values (creat.values.map (fun v => !(isNA v))) })
      (fun c => rfl) d1 "creatinine", h2]
    rfl
  have hd3 : getCol (setCol (locMask d1 (creat.values.map (fun v => !(isNA v))))
      { name := "sex", dtype := Dtype.dtBool, values := sexCol.values.map eqStrM })
      "creatinine" = some { creat with
        values := keepMasked creat.values (creat.values.map (fun v => !(isNA v))) } := by
    rw [getCol_setCol_other (locMask d1 (creat.values.map (fun v => !(isNA v))))
      { name := "sex", dtype := Dtype.dtBool, values := sexCol.values.map eqStrM }
      "creatinine" (show ("creatinine" : String) ≠ "sex" by decide)]
    exact hd2
  obtain ⟨w, hout, hw⟩ := flchainFloatTail _ out "creatinine" _ (by decide) hd3 h6
  refine ⟨w, hout, ?_⟩
  obtain ⟨-, -, hvals⟩ := castColFloat32_eq hw
  intro v hv
  obtain ⟨x, hx, hfx⟩ := mapOpt_mem hvals v hv
  exact castFloat32Val_not_na (keepMasked_self_not_na creat.values x hx) hfx

theorem flchain_sex_out {raw out : DF} (h : flchainProcess raw = some out) :
    ∃ d1 creat sexCol,
      dropCols raw ["chapter", "Unnamed: 0"] = some d1 ∧
      getCol d1 "creatinine" = some creat ∧
      getCol (locMask d1 (creat.values.map (fun v => !(isNA v)))) "sex" = some sexCol ∧
      getCol out "sex" = some
        { name := "sex", dtype := Dtype.dtFloat32,
          values := sexCol.values.map
            (fun v => Val.vFloat (if v == Val.vStr "M" then 1 else 0)) } := by
  obtain ⟨d1, creat, sexCol, y, g, h1, h2, h3, h4, h5, h6⟩ := flchainProcess_spec h
  refine ⟨d1, creat, sexCol, h1, h2, h3, ?_⟩
  have hd3 : getCol (setCol (locMask d1 (creat.values.map (fun v => !(isNA v))))
      { name := "sex", dtype := Dtype.dtBool, values := sexCol.values.map eqStrM }) "sex"
      = some { name := "sex", dtype := Dtype.dtBool, values := sexCol.values.map eqStrM } :=
    getCol_setCol_self (locMask d1 (creat.values.map (fun v => !(isNA v))))
      { name := "sex", dtype := Dtype.dtBool, values := sexCol.values.map eqStrM }
  obtain ⟨w, hout, hw⟩ := flchainFloatTail _ out "sex" _ (by decide) hd3 h6
  have hcast : castColFloat32 ⟨"sex", Dtype.dtBool, sexCol.values.map eqStrM⟩ =
      some ⟨"sex", Dtype.dtFloat32, sexCol.values.map
        (fun v => Val.vFloat (if v == Val.vStr "M" then 1 else 0))⟩ := by
    rw [castColFloat32]
    show (mapOpt castFloat32Val (sexCol.values.map eqStrM)).map _ = _
    rw [mapOpt_cast_eqStrM]
    rfl
  rw [hcast] at hw
  cases hw
  exact hout

/-- C1 counterexample: on a concrete raw flchain table the processed sex
column is float32-typed — not boolean-typed as the claim states (the
boolean comparison column is cast to float32 by the final dtype loop). -/
theorem claim_C1_counterexample :
    flchainProcess rawFlchainSample = some outFlchainSample ∧
    getCol outFlchainSample "sex" = some ⟨"sex", Dtype.dtFloat32, [Val.vFloat 1]⟩ ∧
    Dtype.dtFloat32 ≠ Dtype.dtBool :=
  ⟨by decide, by decide, by decide⟩

/-- C1 (amended): for every raw flchain table, the processed table
contains no row whose creatinine value is missing, and its sex column is
float32-typed (the boolean comparison with `'M'` is cast to float32 along
with the other non-categorical columns). -/
theorem claim_C1_no_missing_creatinine (raw out : DF)
    (h : flchainProcess raw = some out) :
    (∃ c, getCol out "creatinine" = some c ∧ ∀ v ∈ c.values, isNA v = false) ∧
    (∃ s, getCol out "sex" = some s ∧ s.dtype = Dtype.dtFloat32) := by
  refine ⟨flchain_creatinine_out h, ?_⟩
  obtain ⟨d1, creat, sexCol, -, -, -, hout⟩ := flchain_sex_out h
  exact ⟨_, hout, rfl⟩

/-- Witness for C1: the amended claim at a concrete raw flchain table. -/
theorem claim_C1_witness :
    (∃ c, getCol outFlchainSample "creatinine" = some c ∧
      ∀ v ∈ c.values, isNA v = false) ∧
    (∃ s, getCol outFlchainSample "sex" = some s ∧ s.dtype = Dtype.dtFloat32) :=
  claim_C1_no_missing_creatinine rawFlchainSample outFlchainSample (by decide)

/-- C5: in every processed flchain table the columns `sample.yr` and
`flc.grp` are categorical and every remaining column is float32. -/
theorem claim_C5_flchain_dtypes (raw out : DF) (h : flchainProcess raw = some out) :
    (∃ c, getCol out "sample.yr" = some c ∧ c.dtype = Dtype.dtCategory) ∧
    (∃ c, getCol out "flc.grp" = some c ∧ c.dtype = Dtype.dtCategory) ∧
    (∀ c ∈ out, flchainCategorical.contains c.name = false →
      c.dtype = Dtype.dtFloat32) := by
  obtain ⟨d1, creat, sexCol, y, g, h1, h2, h3, h4, h5, h6⟩ := flchainProcess_spec h
  refine ⟨⟨castColCategory y, flchainCatTail _ out "sample.yr" y (by decide) h4 h6, rfl⟩,
    ⟨castColCategory g, flchainCatTail _ out "flc.grp" g (by decide) h5 h6, rfl⟩, ?_⟩
  intro c hc hfc
  obtain ⟨c4, hc4, hgc4⟩ := mapOpt_mem h6 c hc
  have hgc4' : (if flchainCategorical.contains c4.name then some c4
      else castColFloat32 c4) = some c := hgc4
  by_cases hcont : flchainCategorical.contains c4.name = true
  · rw [if_pos hcont] at hgc4'
    cases hgc4'
    rw [hcont] at hfc
    simp at hfc
  · rw [if_neg hcont] at hgc4'
    exact (castColFloat32_eq hgc4').2.1

/-- Witness for C5 at a concrete raw flchain table. -/
theorem claim_C5_witness :
    (∃ c, getCol outFlchainSample "sample.yr" = some c ∧
      c.dtype = Dtype.dtCategory) ∧
    (∃ c, getCol outFlchainSample "flc.grp" = some c ∧
      c.dtype = Dtype.dtCategory) ∧
    (∀ c ∈ outFlchainSample, flchainCategorical.contains c.name = false →
      c.dtype = Dtype.dtFloat32) :=
  claim_C5_flchain_dtypes rawFlchainSample outFlchainSample (by decide)

/-- C10: in every processed flchain table the sex column is the row-wise
indicator of the raw sex value being the string `'M'` (restricted to the
rows surviving the creatinine filter), cast to float32: `1.0` on `'M'`
and `0.0` otherwise. -/
theorem claim_C10_sex_indicator (raw out : DF) (creat sexRaw s : Column)
    (h : flchainProcess raw = some out)
    (hcreat : getCol raw "creatinine" = some creat)
    (hsex : getCol raw "sex" = some sexRaw)
    (hs : getCol out "sex" = some s) :
    s.dtype = Dtype.dtFloat32 ∧
    s.values = (keepMasked sexRaw.values (creat.values.map (fun v => !(isNA v)))).map
      (fun v => Val.vFloat (if v == Val.vStr "M" then 1 else 0)) := by
  obtain ⟨d1, creat', sexCol, h1, h2, h3, hout⟩ := flchain_sex_out h
  have hfil := dropCols_eq_filter h1
  have hcr1 : getCol d1 "creatinine" = getCol raw "creatinine" := by
    rw [hfil]
    apply getCol_filter_keep
    intro c hc
    rw [hc]
    decide
  have hsx1 : getCol d1 "sex" = getCol raw "sex" := by
    rw [hfil]
    apply getCol_filter_keep
    intro c hc
    rw [hc]
    decide
  rw [hcr1, hcreat] at h2
  cases h2
  have hsc : getCol (locMask d1 (creat.values.map (fun v => !(isNA v)))) "sex" =
      some ⟨sexRaw.name, sexRaw.dtype,
        keepMasked sexRaw.values (creat.values.map (fun v => !(isNA v)))⟩ := by
    rw [locMask, getCol_map_presName
      (fun c => { c with
        values := keepMasked c.values (creat.values.map (fun v => !(isNA v))) })
      (fun c => rfl) d1 "sex", hsx1, hsex]
    rfl
  rw [hsc] at h3
  cases h3
  rw [hout] at hs
  cases hs
  exact ⟨rfl, rfl⟩

/-- Witness for C10 at a concrete raw flchain table: the surviving row has
raw sex `'M'`, so the processed sex value is `1.0`. -/
theorem claim_C10_witness :
    (⟨"sex", Dtype.dtFloat32, [Val.vFloat 1]⟩ : Column).dtype = Dtype.dtFloat32 ∧
    (⟨"sex", Dtype.dtFloat32, [Val.vFloat 1]⟩ : Column).values =
      (keepMasked [Val.vStr "M", Val.vStr "F"]
        ([Val.vFloat 1, Val.na].map (fun v => !(isNA v)))).map
        (fun v => Val.vFloat (if v == Val.vStr "M" then 1 else 0)) :=
  claim_C10_sex_indicator rawFlchainSample outFlchainSample
    ⟨"creatinine", Dtype.dtFloat64, [Val.vFloat 1, Val.na]⟩
    ⟨"sex", Dtype.dtObject, [Val.vStr "M", Val.vStr "F"]⟩
    ⟨"sex", Dtype.dtFloat32, [Val.vFloat 1]⟩
    (by decide) (by decide) (by decide) (by decide)

theorem nwtcoProcess_spec {raw out : DF} (h : nwtcoProcess raw = some out) :
    ∃ instit histol study stage i2 h2v s4 d5 d6,
      getCol raw "instit" = some instit ∧
      getCol raw "histol" = some histol ∧
      getCol raw "study" = some study ∧
      getCol raw "stage" = some stage ∧
      mapOpt (fun v => subVal v 1) instit.values = some i2 ∧
      mapOpt (fun v => subVal v 1) histol.values = some h2v ∧
      mapOpt (fun v => subVal v 3) study.values = some s4 ∧
      dropCols (setCol (setCol (setCol (setCol raw
          { name := "instit_2", dtype := instit.dtype, values := i2 })
          { name := "histol_2", dtype := histol.dtype, values := h2v })
          { name := "study_4", dtype := study.dtype, values := s4 })
          (castColCategory stage))
        ["Unnamed: 0", "seqno", "instit", "histol", "study"] = some d5 ∧
      mapOpt (fun c => if c.name == "stage" then some c else castColFloat32 c) d5
        = some d6 ∧
      labelColsAtEnd d6 "edrel" "rel" = some out := by
  simp only [nwtcoProcess, Option.bind_eq_some] at h
  obtain ⟨instit, hi, histol, hh, study, hst, stage, hsg, i2, hi2, h2v, hh2, s4, hs4,
    d5, hd5, d6, hd6, hout⟩ := h
  exact ⟨instit, histol, study, stage, i2, h2v, s4, d5, d6, hi, hh, hst, hsg, hi2,
    hh2, hs4, hd5, hd6, hout⟩

theorem nwtco_getCol_out {d4 d5 d6 out : DF} {n : String} {c : Column}
    (hname : c.name = n)
    (hn_stage : n ≠ "stage")
    (hn_labels : (["Unnamed: 0", "seqno", "instit", "histol", "study"] :
      List String).contains n = false)
    (hn_dur : n ≠ "edrel") (hn_evt : n ≠ "rel")
    (hc : getCol d4 n = some c)
    (hd5 : dropCols d4 ["Unnamed: 0", "seqno", "instit", "histol", "study"] = some d5)
    (hd6 : mapOpt (fun c => if c.name == "stage" then some c else castColFloat32 c) d5
      = some d6)
    (hout : labelColsAtEnd d6 "edrel" "rel" = some out) :
    ∃ w, getCol out n = some w ∧ castColFloat32 c = some w := by
  have hc5 : getCol d5 n = some c := by
    rw [dropCols_eq_filter hd5, getCol_filter_keep _ _ _ (fun c0 hc0 => by
      rw [hc0, hn_labels]
      rfl)]
    exact hc
  obtain ⟨w, hw0⟩ := mapOpt_some_forall hd6 _ (getCol_mem hc5)
  have hw : castColFloat32 c = some w := by
    have hw1 : (if c.name == "stage" then some c else castColFloat32 c) = some w := hw0
    rwa [if_neg (by rw [hname]; simp [hn_stage])] at hw1
  have h6eq := getCol_mapOpt_presName (fun a b hb => stageStep_presName a b hb) hd6 n
  rw [hc5] at h6eq
  refine ⟨w, ?_, hw⟩
  rw [getCol_labelColsAtEnd_other hout hn_dur hn_evt, h6eq]
  show (if c.name == "stage" then some c else castColFloat32 c) = some w
  rw [if_neg (by rw [hname]; simp [hn_stage])]
  exact hw

theorem nwtco_absent {d4 d5 d6 out : DF} {n : String}
    (hn_labels : (["Unnamed: 0", "seqno", "instit", "histol", "study"] :
      List String).contains n = true)
    (hn_dur : n ≠ "edrel") (hn_evt : n ≠ "rel")
    (hd5 : dropCols d4 ["Unnamed: 0", "seqno", "instit", "histol", "study"] = some d5)
    (hd6 : mapOpt (fun c => if c.name == "stage" then some c else castColFloat32 c) d5
      = some d6)
    (hout : labelColsAtEnd d6 "edrel" "rel" = some out) :
    hasCol out n = false := by
  have h5 : hasCol d5 n = false := by
    rw [dropCols_eq_filter hd5]
    apply hasCol_filter_false
    intro c hc
    rw [hc, hn_labels]
    rfl
  rw [hasCol_labelColsAtEnd_other hout hn_dur hn_evt,
    hasCol_mapOpt_presName (fun a b hb => stageStep_presName a b hb) hd6 n]
  exact h5

theorem nwtco_d4_getCol_A (raw : DF) (a b c d : Column)
    (hab : a.name ≠ b.name) (hac : a.name ≠ c.name) (had : a.name ≠ d.name) :
    getCol (setCol (setCol (setCol (setCol raw a) b) c) d) a.name = some a := by
  rw [getCol_setCol_other _ d a.name had, getCol_setCol_other _ c a.name hac,
    getCol_setCol_other _ b a.name hab]
  exact getCol_setCol_self raw a

theorem nwtco_d4_getCol_B (raw : DF) (a b c d : Column)
    (hbc : b.name ≠ c.name) (hbd : b.name ≠ d.name) :
    getCol (setCol (setCol (setCol (setCol raw a) b) c) d) b.name = some b := by
  rw [getCol_setCol_other _ d b.name hbd, getCol_setCol_other _ c b.name hbc]
  exact getCol_setCol_self (setCol raw a) b

theorem nwtco_d4_getCol_C (raw : DF) (a b c d : Column) (hcd : c.name ≠ d.name) :
    getCol (setCol (setCol (setCol (setCol raw a) b) c) d) c.name = some c := by
  rw [getCol_setCol_other _ d c.name hcd]
  exact getCol_setCol_self (setCol (setCol raw a) b) c

/-- C2: for every raw nwtco table, in the processed table the derived
columns `instit_2`, `histol_2` and `study_4` equal, row by row and at the
numeric level, the raw `instit - 1`, `histol - 1` and `study - 3`, and the
original columns `instit`, `histol` and `study` are absent from the
output. -/
theorem claim_C2_nwtco_offsets (raw out : DF) (h : nwtcoProcess raw = some out) :
    (hasCol out "instit" = false ∧ hasCol out "histol" = false ∧
      hasCol out "study" = false) ∧
    (∀ instit, getCol raw "instit" = some instit →
      ∃ c, getCol out "instit_2" = some c ∧
        c.values.length = instit.values.length ∧
        ∀ (i : Nat) (v : Val) (q : Rat), instit.values[i]? = some v →
          toRat v = some q →
          ∃ w, c.values[i]? = some w ∧ toRat w = some (q - 1)) ∧
    (∀ histol, getCol raw "histol" = some histol →
      ∃ c, getCol out "histol_2" = some c ∧
        c.values.length = histol.values.length ∧
        ∀ (i : Nat) (v : Val) (q : Rat), histol.values[i]? = some v →
          toRat v = some q →
          ∃ w, c.values[i]? = some w ∧ toRat w = some (q - 1)) ∧
    (∀ study, getCol raw "study" = some study →
      ∃ c, getCol out "study_4" = some c ∧
        c.values.length = study.values.length ∧
        ∀ (i : Nat) (v : Val) (q : Rat), study.values[i]? = some v →
          toRat v = some q →
          ∃ w, c.values[i]? = some w ∧ toRat w = some (q - 3)) := by
  obtain ⟨instit, histol, study, stage, i2, h2v, s4, d5, d6, hi, hh, hst, hsg, hi2,
    hh2, hs4, hd5, hd6, hout⟩ := nwtcoProcess_spec h
  have hstageName : stage.name = "stage" := getCol_name hsg
  refine ⟨⟨?_, ?_, ?_⟩, ?_, ?_, ?_⟩
  · exact nwtco_absent (by decide) (by decide) (by decide) hd5 hd6 hout
  · exact nwtco_absent (by decide) (by decide) (by decide) hd5 hd6 hout
  · exact nwtco_absent (by decide) (by decide) (by decide) hd5 hd6 hout
  · intro instit' hinstit'
    rw [hi] at hinstit'
    cases hinstit'
    have hA := nwtco_d4_getCol_A raw
      { name := "instit_2", dtype := instit.dtype, values := i2 }
      { name := "histol_2", dtype := histol.dtype, values := h2v }
      { name := "study_4", dtype := study.dtype, values := s4 }
      (castColCategory stage)
      (show ("instit_2" : String) ≠ "histol_2" by decide)
      (show ("instit_2" : String) ≠ "study_4" by decide)
      (show ("instit_2" : String) ≠ stage.name by rw [hstageName]; decide)
    obtain ⟨w1, hw1out, hw1cast⟩ := nwtco_getCol_out rfl
      (show ("instit_2" : String) ≠ "stage" by decide)
      (show (["Unnamed: 0", "seqno", "instit", "histol", "study"] :
        List String).contains "instit_2" = false by decide)
      (show ("instit_2" : String) ≠ "edrel" by decide)
      (show ("instit_2" : String) ≠ "rel" by decide) hA hd5 hd6 hout
    obtain ⟨ws, hws, hlen, hptr⟩ := shiftCast_chain hi2
    have hvals : mapOpt castFloat32Val i2 = some w1.values :=
      (castColFloat32_eq hw1cast).2.2
    have hwseq : ws = w1.values := Option.some.inj (hws.symm.trans hvals)
    refine ⟨w1, hw1out, ?_, ?_⟩
    · rw [← hwseq]
      exact hlen
    · intro i v q hv hq
      obtain ⟨w, hwget, hwr⟩ := hptr i v q hv hq
      refine ⟨w, ?_, ?_⟩
      · rw [← hwseq]
        exact hwget
      · simpa using hwr
  · intro histol' hhistol'
    rw [hh] at hhistol'
    cases hhistol'
    have hB := nwtco_d4_getCol_B raw
      { name := "instit_2", dtype := instit.dtype, values := i2 }
      { name := "histol_2", dtype := histol.dtype, values := h2v }
      { name := "study_4", dtype := study.dtype, values := s4 }
      (castColCategory stage)
      (show ("histol_2" : String) ≠ "study_4" by decide)
      (show ("histol_2" : String) ≠ stage.name by rw [hstageName]; decide)
    obtain ⟨w1, hw1out, hw1cast⟩ := nwtco_getCol_out rfl
      (show ("histol_2" : String) ≠ "stage" by decide)
      (show (["Unnamed: 0", "seqno", "instit", "histol", "study"] :
        List String).contains "histol_2" = false by decide)
      (show ("histol_2" : String) ≠ "edrel" by decide)
      (show ("histol_2" : String) ≠ "rel" by decide) hB hd5 hd6 hout
    obtain ⟨ws, hws, hlen, hptr⟩ := shiftCast_chain hh2
    have hvals : mapOpt castFloat32Val h2v = some w1.values :=
      (castColFloat32_eq hw1cast).2.2
    have hwseq : ws = w1.values := Option.some.inj (hws.symm.trans hvals)
    refine ⟨w1, hw1out, ?_, ?_⟩
    · rw [← hwseq]
      exact hlen
    · intro i v q hv hq
      obtain ⟨w, hwget, hwr⟩ := hptr i v q hv hq
      refine ⟨w, ?_, ?_⟩
      · rw [← hwseq]
        exact hwget
      · simpa using hwr
  · intro study' hstudy'
    rw [hst] at hstudy'
    cases hstudy'
    have hC := nwtco_d4_getCol_C raw
      { name := "instit_2", dtype := instit.dtype, values := i2 }
      { name := "histol_2", dtype := histol.dtype, values := h2v }
      { name := "study_4", dtype := study.dtype, values := s4 }
      (castColCategory stage)
      (show ("study_4" : String) ≠ stage.name by rw [hstageName]; decide)
    obtain ⟨w1, hw1out, hw1cast⟩ := nwtco_getCol_out rfl
      (show ("study_4" : String) ≠ "stage" by decide)
      (show (["Unnamed: 0", "seqno", "instit", "histol", "study"] :
        List String).contains "study_4" = false by decide)
      (show ("study_4" : String) ≠ "edrel" by decide)
      (show ("study_4" : String) ≠ "rel" by decide) hC hd5 hd6 hout
    obtain ⟨ws, hws, hlen, hptr⟩ := shiftCast_chain hs4
    have hvals : mapOpt castFloat32Val s4 = some w1.values :=
      (castColFloat32_eq hw1cast).2.2
    have hwseq : ws = w1.values := Option.some.inj (hws.symm.trans hvals)
    refine ⟨w1, hw1out, ?_, ?_⟩
    · rw [← hwseq]
      exact hlen
    · intro i v q hv hq
      obtain ⟨w, hwget, hwr⟩ := hptr i v q hv hq
      refine ⟨w, ?_, ?_⟩
      · rw [← hwseq]
        exact hwget
      · simpa using hwr

/-- Witness for C2 at a concrete raw nwtco table: `instit` is absent from
the output and `instit_2` holds `instit - 1` row by row. -/
theorem claim_C2_witness :
    hasCol outNwtcoSample "instit" = false ∧
    (∃ c, getCol outNwtcoSample "instit_2" = some c ∧
      c.values.length = ([Val.vInt 2] : List Val).length ∧
      ∀ (i : Nat) (v : Val) (q : Rat), ([Val.vInt 2] : List Val)[i]? = some v →
        toRat v = some q →
        ∃ w, c.values[i]? = some w ∧ toRat w = some (q - 1)) := by
  have h := claim_C2_nwtco_offsets rawNwtcoSample outNwtcoSample (by decide)
  exact ⟨h.1.1, h.2.1 ⟨"instit", Dtype.dtInt64, [Val.vInt 2]⟩ (by decide)⟩

theorem flchain_hasCol_preserved {raw out : DF} (h : flchainProcess raw = some out)
    {n : String}
    (hn : (["chapter", "Unnamed: 0"] : List String).contains n = false)
    (hraw : hasCol raw n = true) : hasCol out n = true := by
  obtain ⟨d1, creat, sexCol, y, g, h1, h2, h3, h4, h5, h6⟩ := flchainProcess_spec h
  have e1 : hasCol d1 n = true := by
    rw [dropCols_eq_filter h1, hasCol_filter_keep _ _ _ (fun c hc => by
      rw [hc, hn]
      rfl)]
    exact hraw
  have e2 : hasCol (locMask d1 (creat.values.map (fun v => !(isNA v)))) n = true := by
    rw [locMask, hasCol_map_presName
      (fun c => { c with
        values := keepMasked c.values (creat.values.map (fun v => !(isNA v))) })
      (fun c => rfl)]
    exact e1
  have e3 : hasCol (setCol (locMask d1 (creat.values.map (fun v => !(isNA v))))
      { name := "sex", dtype := Dtype.dtBool, values := sexCol.values.map eqStrM }) n
      = true := by
    rw [hasCol_setCol, e2]
    rfl
  rw [hasCol_mapOpt_presName
    (fun a b hb => castStep_presName flchainCategorical a b hb) h6 n,
    hasCol_map_presName _ (catStep_presName flchainCategorical)]
  exact e3

/-- C8: for every dataset, a raw table containing the dataset's
`col_duration` and `col_event` columns still contains them after the
processed transform; in particular rotterdam's transform drops `dtime`
and `death` while keeping `rtime` and `recur`. -/
theorem claim_C8_label_columns_survive :
    (∀ (d : Dataset) (raw out : DF),
      hasCol raw (colDuration d) = true → hasCol raw (colEvent d) = true →
      readDf d raw true = some out →
      hasCol out (colDuration d) = true ∧ hasCol out (colEvent d) = true) ∧
    (∀ raw out : DF, readDf Dataset.rotterdam raw true = some out →
      hasCol out "dtime" = false ∧ hasCol out "death" = false) := by
  constructor
  · intro d raw out hdur hevt hread
    cases d with
    | flchain =>
      have hp : flchainProcess raw = some out := hread
      exact ⟨flchain_hasCol_preserved hp (by decide) hdur,
        flchain_hasCol_preserved hp (by decide) hevt⟩
    | nwtco =>
      have hp : nwtcoProcess raw = some out := hread
      obtain ⟨instit, histol, study, stage, i2, h2v, s4, d5, d6, hi, hh, hst, hsg,
        hi2, hh2, hs4, hd5, hd6, hout⟩ := nwtcoProcess_spec hp
      exact hasCol_labelColsAtEnd_labels hout
    | gbsg =>
      have hp : gbsgProcess raw = some out := hread
      have hfil := dropCols_eq_filter hp
      subst hfil
      constructor
      · rw [hasCol_filter_keep _ _ _ (fun c hc => by rw [hc]; rfl)]
        exact hdur
      · rw [hasCol_filter_keep _ _ _ (fun c hc => by rw [hc]; rfl)]
        exact hevt
    | rotterdam =>
      have hp : rotterdamProcess raw = some out := hread
      have hfil := dropCols_eq_filter hp
      subst hfil
      constructor
      · rw [hasCol_filter_keep _ _ _ (fun c hc => by rw [hc]; rfl)]
        exact hdur
      · rw [hasCol_filter_keep _ _ _ (fun c hc => by rw [hc]; rfl)]
        exact hevt
  · intro raw out hread
    have hp : rotterdamProcess raw = some out := hread
    have hfil := dropCols_eq_filter hp
    subst hfil
    constructor
    · apply hasCol_filter_false
      intro c hc
      rw [hc]
      rfl
    · apply hasCol_filter_false
      intro c hc
      rw [hc]
      rfl

/-- Witness for C8 at a concrete raw rotterdam table: the duration and
event columns `rtime` and `recur` survive while `dtime` and `death` are
dropped. -/
theorem claim_C8_witness :
    (hasCol outRotterdamSample "rtime" = true ∧
      hasCol outRotterdamSample "recur" = true) ∧
    (hasCol outRotterdamSample "dtime" = false ∧
      hasCol outRotterdamSample "death" = false) := by
  refine ⟨?_, ?_⟩
  · exact claim_C8_label_columns_survive.1 Dataset.rotterdam rawRotterdamSample
      outRotterdamSample (by decide) (by decide) (by decide)
  · exact claim_C8_label_columns_survive.2 rawRotterdamSample outRotterdamSample
      (by decide)
